import Mathlib

/-!
Verification of the tonic client transport core.

This file gives a shallow embedding of the code in
src/tonic/src/transport/service/grpc_timeout.rs,
src/tonic/src/client/grpc.rs and
src/tonic/src/transport/channel/service/{mod.rs, modifier_fn.rs, connection.rs},
and proves theorems about timeout parsing, deadline combination, request
preparation, response creation, configuration copy-on-write, one-shot layer
composition and the deadline response future.

Machine integers are modelled as Nat (with explicit bound checks where the
source checks for overflow), header values as byte lists, strings as Lean
strings or char lists, fallible code as Except/Option, and the panics of the
source as the `none` case of an Option-valued result.
-/

namespace Tonic

/-- Rust std::time::Duration, modelled as a number of nanoseconds.
Duration stores u64 seconds plus u32 nanos, so every value produced by the
constructors below is exactly representable. -/
abbrev Duration := Nat

/-- Duration::from_secs. -/
def Duration.from_secs (n : Nat) : Duration := n * 1000000000

/-- Duration::from_millis. -/
def Duration.from_millis (n : Nat) : Duration := n * 1000000

/-- Duration::from_micros. -/
def Duration.from_micros (n : Nat) : Duration := n * 1000

/-- Duration::from_nanos. -/
def Duration.from_nanos (n : Nat) : Duration := n

/-- const SECONDS_IN_HOUR from grpc_timeout.rs. -/
def SECONDS_IN_HOUR : Nat := 60 * 60

/-- const SECONDS_IN_MINUTE from grpc_timeout.rs. -/
def SECONDS_IN_MINUTE : Nat := 60

/-! ## Timeout parsing (grpc_timeout.rs, try_parse_grpc_timeout)

A HeaderValue is an opaque byte sequence; we model it as a list of byte
values.  `HeaderValue::to_str` succeeds exactly when every byte is visible
ASCII (32..=126) or a horizontal tab (9). -/

/-- One HeaderValue: a list of byte values. -/
abbrev HeaderBytes := List Nat

/-- The byte test used by http's HeaderValue::to_str (is_visible_ascii). -/
def visibleAscii (b : Nat) : Bool := b = 9 || (32 ≤ b && b < 127)

/-- ASCII digit byte. -/
def isDigitByte (b : Nat) : Bool := 48 ≤ b && b ≤ 57

/-- Numeric value of a list of ASCII digit bytes, most significant first.
This is what a successful u64 parse of those bytes produces. -/
def digitsVal (l : List Nat) : Nat := l.foldl (fun acc b => acc * 10 + (b - 48)) 0

/-- The digit bytes of a numeric literal: Rust's u64 FromStr accepts one
optional leading plus sign (byte 43) before the digits. -/
def numericDigits (l : List Nat) : List Nat :=
  match l with
  | [] => []
  | c :: rest => if c = 43 then rest else c :: rest

/-- Rust "s.parse::<u64>()" on a byte list: optional leading plus sign, then a
non-empty run of ASCII digits whose value fits in u64. -/
def parseU64 (l : List Nat) : Option Nat :=
  if (numericDigits l).isEmpty then none
  else if (numericDigits l).all isDigitByte then
    if digitsVal (numericDigits l) < 2 ^ 64 then some (digitsVal (numericDigits l)) else none
  else none

/-- str::is_char_boundary on the byte list view of a string: index 0 and the
length are boundaries; otherwise the byte at the index must not be a UTF-8
continuation byte.  str::split_at panics when its index is not a boundary. -/
def isCharBoundary (val : List Nat) (i : Nat) : Bool :=
  i = 0 || (if i = val.length then true
            else match val[i]? with
                 | some b => !(128 ≤ b && b < 192)
                 | none => false)

/-- try_parse_grpc_timeout from grpc_timeout.rs, on the header value itself
(the header-present case).  `none` models a panic (the only panic site is the
char-boundary precondition of split_at); `some (.error val)` models returning
the original header value as the error; `some (.ok d)` a parsed duration.

Byte constants: H = 72, M = 77, S = 83, m = 109, u = 117, n = 110. -/
def try_parse_grpc_timeout_value (val : HeaderBytes) : Option (Except HeaderBytes Duration) :=
  -- val.to_str().map_err(|_| val)
  if !val.all visibleAscii then some (.error val)
  -- .and_then(|s| if s.is_empty() { Err(val) } else { Ok(s) })
  else if val.isEmpty then some (.error val)
  -- .split_at(val.len() - 1): panics off a char boundary
  else if !isCharBoundary val (val.length - 1) then none
  else
    let timeout_value := val.take (val.length - 1)
    let timeout_unit := val.drop (val.length - 1)
    -- gRPC spec: TimeoutValue is at most 8 digits
    if timeout_value.length > 8 then some (.error val)
    else
      match parseU64 timeout_value with
      | none => some (.error val)
      | some n =>
        if timeout_unit = [72] then some (.ok (Duration.from_secs (n * SECONDS_IN_HOUR)))
        else if timeout_unit = [77] then some (.ok (Duration.from_secs (n * SECONDS_IN_MINUTE)))
        else if timeout_unit = [83] then some (.ok (Duration.from_secs n))
        else if timeout_unit = [109] then some (.ok (Duration.from_millis n))
        else if timeout_unit = [117] then some (.ok (Duration.from_micros n))
        else if timeout_unit = [110] then some (.ok (Duration.from_nanos n))
        else some (.error val)

/-- A request header map, as a sequence of (name, value) pairs; get returns
the first value for a name. -/
abbrev HeaderMapBytes := List (String × HeaderBytes)

/-- metadata::GRPC_TIMEOUT_HEADER. -/
def GRPC_TIMEOUT_HEADER : String := "grpc-timeout"

/-- try_parse_grpc_timeout over the whole header map: absent header is
Ok(None). -/
def try_parse_grpc_timeout (headers : HeaderMapBytes) : Option (Except HeaderBytes (Option Duration)) :=
  match headers.lookup GRPC_TIMEOUT_HEADER with
  | none => some (.ok none)
  | some val => (try_parse_grpc_timeout_value val).map (Except.map some)

/-! ### The spec's (amended) description of the accepted grammar -/

/-- Unit byte accepted by the parser: one of H, M, S, m, u, n. -/
def isUnitByte (b : Nat) : Bool :=
  b = 72 || b = 77 || b = 83 || b = 109 || b = 117 || b = 110

/-- Nanoseconds per accepted unit. -/
def unitScale (b : Nat) : Nat :=
  if b = 72 then 3600000000000
  else if b = 77 then 60000000000
  else if b = 83 then 1000000000
  else if b = 109 then 1000000
  else if b = 117 then 1000
  else if b = 110 then 1
  else 0

/-- The numeric part is well formed: after an optional leading plus sign, a
non-empty run of ASCII digits. -/
def numericOk (l : List Nat) : Bool :=
  !(numericDigits l).isEmpty && (numericDigits l).all isDigitByte

/-- Well-formedness of a grpc-timeout header value following the spec claim,
amended: a numeric part of at most 8 characters (ASCII digits, optionally
preceded by one plus sign) followed by a single unit character. -/
def timeoutWellFormed (val : HeaderBytes) : Bool :=
  !val.isEmpty && isUnitByte (val.getLastD 0) && decide (val.dropLast.length ≤ 8)
    && numericOk val.dropLast

/-- Well-formedness exactly as the claim states it: at most 8 ASCII digits
(nothing else) followed by a single unit character. -/
def timeoutClaimFormat (val : HeaderBytes) : Bool :=
  !val.isEmpty && isUnitByte (val.getLastD 0) && decide (val.dropLast.length ≤ 8)
    && !val.dropLast.isEmpty && val.dropLast.all isDigitByte

/-- The duration a well-formed value denotes. -/
def denotedDuration (val : HeaderBytes) : Duration :=
  digitsVal (numericDigits val.dropLast) * unitScale (val.getLastD 0)

/-! ## Deadline combination (grpc_timeout.rs, GrpcTimeout::call / async_call) -/

/-- The `match (client_timeout, self.server_timeout)` combination in
GrpcTimeout::call. -/
def combine_timeouts (client server : Option Duration) : Option Duration :=
  match client, server with
  | none, none => none
  | some dur, none => some dur
  | none, some dur => some dur
  | some header, some server_d => some (min header server_d)

/-- The timeout duration GrpcTimeout::call applies: parse grpc-timeout
(treating a parse error as absent, after logging), then combine with the
server timeout.  The outer Option is the panic-freedom of the parser;
`some d` means the call proceeds with deadline `d`. -/
def GrpcTimeout.call_timeout (headers : HeaderMapBytes) (server_timeout : Option Duration) :
    Option (Option Duration) :=
  (try_parse_grpc_timeout headers).map fun parsed =>
    let client_timeout := match parsed with
      | .ok d => d
      | .error _ => none
    combine_timeouts client_timeout server_timeout

/-- The timeout duration computed inside GrpcTimeout::async_call once the
request future has resolved; the source duplicates the code of `call`
verbatim (parse, treat errors as absent, take the shorter duration). -/
def GrpcTimeout.async_call_timeout (headers : HeaderMapBytes) (server_timeout : Option Duration) :
    Option (Option Duration) :=
  (try_parse_grpc_timeout headers).map fun parsed =>
    let client_timeout := match parsed with
      | .ok d => d
      | .error _ => none
    match client_timeout, server_timeout with
    | none, none => none
    | some dur, none => some dur
    | none, some dur => some dur
    | some header, some server_d => some (min header server_d)

/-- The client timeout as the spec sees it: the parsed value when parsing
succeeds, absent otherwise. -/
def client_timeout_view (headers : HeaderMapBytes) : Option Duration :=
  match try_parse_grpc_timeout headers with
  | some (.ok d) => d
  | _ => none

/-- The applied deadline as the claim words it: min of the two when both are
present, the sole present one when exactly one is, absent when both are. -/
def applied_deadline_spec (c s : Option Duration) : Option Duration :=
  if c.isSome && s.isSome then some (min (c.getD 0) (s.getD 0))
  else if c.isSome then c
  else if s.isSome then s
  else none

/-! ## The sleep future (grpc_timeout.rs, SleepKnown and ResponseFuture)

Futures are modelled as step functions taking the current instant (a Nat)
and returning the poll outcome together with the successor state.  A tokio
Sleep is modelled by its absolute deadline; sleep(d) created at instant t has
deadline t + d and polls Ready once the instant reaches the deadline. -/

/-- The receiving half of the oneshot channel carrying the resolved deadline:
still empty, holding a buffered value, or closed (sender dropped without
sending). -/
inductive OneshotRx where
  | pending : OneshotRx
  | value : Option Duration → OneshotRx
  | closed : OneshotRx
deriving DecidableEq, Repr

/-- enum SleepKnown: `no rx` still awaits the channel; `yes sleep` holds an
optional timer (its absolute deadline). -/
inductive SleepKnown where
  | no : OneshotRx → SleepKnown
  | yes : Option Nat → SleepKnown
deriving DecidableEq, Repr

/-- Polling the `Yes` arm of SleepKnown: no timer pends forever, a timer
fires once the instant has reached its deadline. -/
def pollYes (now : Nat) (sleep : Option Nat) : Bool × SleepKnown :=
  match sleep with
  | none => (false, .yes none)
  | some deadline => (decide (deadline ≤ now), .yes (some deadline))

/-- SleepKnown::poll.  The result is `none` when the poll panics (the unwrap
of a closed channel), otherwise `some (fired, next_state)`.  A buffered
channel value makes the state transition to `Yes` and the loop re-poll it at
the same instant, which we inline. -/
def SleepKnown.poll (now : Nat) : SleepKnown → Option (Bool × SleepKnown)
  | .no .pending => some (false, .no .pending)
  | .no (.value v) => some (pollYes now (v.map (fun d => now + d)))
  | .no .closed => none
  | .yes s => some (pollYes now s)

/-- Poll a SleepKnown repeatedly at the given instants, stopping at the first
firing (or panic). -/
def pollSleepMany (times : List Nat) (s : SleepKnown) : Option (Bool × SleepKnown) :=
  match times with
  | [] => some (false, s)
  | t :: rest =>
    match s.poll t with
    | none => none
    | some (true, s1) => some (true, s1)
    | some (false, s1) => pollSleepMany rest s1

/-- Poll outcome of a future. -/
inductive FuturePoll (α : Type _) where
  | ready : α → FuturePoll α
  | pending : FuturePoll α
deriving DecidableEq, Repr

/-- The boxed error produced by the deadline middleware: either the inner
service's error, or crate::TimeoutExpired. -/
inductive CallError (E : Type _) where
  | inner : E → CallError E
  | timeoutExpired : CallError E
deriving DecidableEq, Repr

/-- ResponseFuture::poll: poll the inner future first and return its result
if ready (mapping the error into the boxed error); only while the inner
future is pending poll the sleep, and produce TimeoutExpired when it fires.
`none` models a panic propagated from SleepKnown::poll. -/
def ResponseFuture.poll {E R : Type _} (innerPoll : FuturePoll (Except E R)) (now : Nat)
    (sleep : SleepKnown) : Option (FuturePoll (Except (CallError E) R) × SleepKnown) :=
  match innerPoll with
  | .ready (.ok r) => some (.ready (.ok r), sleep)
  | .ready (.error e) => some (.ready (.error (.inner e)), sleep)
  | .pending =>
    match sleep.poll now with
    | none => none
    | some (true, s1) => some (.ready (.error .timeoutExpired), s1)
    | some (false, s1) => some (.pending, s1)

/-- Does a ResponseFuture poll outcome abort the call with TimeoutExpired? -/
def isTimeoutOutcome {E R : Type _} :
    Option (FuturePoll (Except (CallError E) R) × SleepKnown) → Bool
  | some (.ready (.error .timeoutExpired), _) => true
  | _ => false

/-! ## URIs and outgoing request preparation (grpc.rs, Grpc::prepare_request) -/

/-- http::uri::PathAndQuery: a path portion (possibly empty) and an optional
query. -/
structure PathAndQuery where
  pathData : String
  query : Option String
deriving DecidableEq, Repr

/-- PathAndQuery::as_str, which http normalizes to "/" when the underlying
data is empty; equality of a PathAndQuery with a string literal compares
this string. -/
def PathAndQuery.asStr (p : PathAndQuery) : String :=
  if p.pathData ++ (match p.query with | some q => "?" ++ q | none => "") = "" then "/"
  else p.pathData ++ (match p.query with | some q => "?" ++ q | none => "")

/-- PathAndQuery::path: the path component, "/" when the stored path is
empty. -/
def PathAndQuery.path (p : PathAndQuery) : String :=
  if p.pathData = "" then "/" else p.pathData

/-- The Display rendering of a PathAndQuery (used by format!): the
normalized path component followed by the query, if any. -/
def PathAndQuery.displayStr (p : PathAndQuery) : String :=
  p.path ++ (match p.query with | some q => "?" ++ q | none => "")

/-- http::Uri, reduced to the parts prepare_request touches. -/
structure Uri where
  scheme : Option String
  authority : Option String
  path_and_query : Option PathAndQuery
deriving DecidableEq, Repr

/-- The path-and-query string of the outgoing URI built by
Grpc::prepare_request (grpc.rs lines 410-426): when the origin has a
path-and-query different from a lone "/", the outgoing one is the origin's
path component followed by the method path; otherwise it is the method path
alone. -/
def compose_path_and_query (origin : Uri) (path : PathAndQuery) : String :=
  match origin.path_and_query with
  | some pnq => if pnq.asStr ≠ "/" then pnq.path ++ path.displayStr else path.asStr
  | none => path.asStr

/-- The composition exactly as the claim words it: the origin's path
component, with a lone "/" stripped to nothing, concatenated with the
method's PathAndQuery. -/
def claim_composed_path (origin : Uri) (path : PathAndQuery) : String :=
  let originPath := match origin.path_and_query with
    | some pnq => pnq.path
    | none => "/"
  (if originPath = "/" then "" else originPath) ++ path.displayStr

/-- The composition as amended: the origin contributes nothing exactly when
its whole path-and-query (query included) is a lone "/" or absent; otherwise
its path component (query dropped) is prepended to the method's
PathAndQuery. -/
def amended_composed_path (origin : Uri) (path : PathAndQuery) : String :=
  match origin.path_and_query with
  | some pnq => if pnq.asStr = "/" then path.asStr else pnq.path ++ path.displayStr
  | none => path.asStr

/-! ### Headers and compression configuration -/

/-- An http::HeaderMap over string values; get returns the first value for a
name. -/
abbrev Headers := List (String × String)

/-- HeaderMap::insert: replaces any existing values for the name. -/
def Headers.insert (hs : Headers) (k v : String) : Headers :=
  (k, v) :: hs.filter (fun p => p.1 != k)

/-- Modelled from the spec: request.rs (SanitizeHeaders::Yes,
MetadataMap::into_sanitized_headers) is not under src/.  §4.1 step 2 says
outgoing headers are the Request's headers "sanitized — reserved gRPC/HTTP/2
headers cannot be user-set"; we take the reserved names to be the protocol
headers the dispatcher itself controls. -/
def RESERVED_HEADERS : List String :=
  ["te", "content-type", "user-agent", "grpc-status", "grpc-message",
   "grpc-message-type", "grpc-encoding", "grpc-accept-encoding", "grpc-timeout"]

/-- Strip the reserved headers from user-supplied request metadata. -/
def sanitizeHeaders (hs : Headers) : Headers :=
  hs.filter (fun p => !(RESERVED_HEADERS.contains p.1))

/-- codec::CompressionEncoding (all compression features enabled). -/
inductive CompressionEncoding where
  | gzip : CompressionEncoding
  | deflate : CompressionEncoding
  | zstd : CompressionEncoding
deriving DecidableEq, Repr

/-- CompressionEncoding::into_header_value. -/
def CompressionEncoding.into_header_value : CompressionEncoding → String
  | .gzip => "gzip"
  | .deflate => "deflate"
  | .zstd => "zstd"

/-- codec::EnabledCompressionEncodings: the set of encodings the client
accepts, as a duplicate-free list. -/
abbrev EnabledCompressionEncodings := List CompressionEncoding

/-- EnabledCompressionEncodings::enable. -/
def EnabledCompressionEncodings.enable (l : EnabledCompressionEncodings)
    (e : CompressionEncoding) : EnabledCompressionEncodings :=
  if e ∈ l then l else l ++ [e]

/-- Modelled from the spec: codec/compression.rs is not under src/.  §3
invariant 3 and §4.1: the grpc-accept-encoding header value is the
comma-separated list of the enabled encodings, present exactly when at least
one is enabled. -/
def into_accept_encoding_header_value (l : EnabledCompressionEncodings) : Option String :=
  match l with
  | [] => none
  | e :: rest =>
    some (rest.foldl (fun acc x => acc ++ "," ++ x.into_header_value) e.into_header_value)

/-- struct GrpcConfig from grpc.rs. -/
structure GrpcConfig where
  origin : Uri
  accept_compression_encodings : EnabledCompressionEncodings
  send_compression_encodings : Option CompressionEncoding
  max_decoding_message_size : Option Nat
  max_encoding_message_size : Option Nat
deriving DecidableEq, Repr

/-- The outgoing http::Request as prepare_request shapes it. -/
structure HttpRequest where
  uriPathAndQuery : String
  method : String
  version : String
  headers : Headers
deriving DecidableEq, Repr

/-- Grpc::prepare_request (grpc.rs lines 410-464): compose the URI, sanitize
the caller's headers, insert te and content-type, then the optional
compression headers. -/
def Grpc.prepare_request (config : GrpcConfig) (reqHeaders : Headers)
    (path : PathAndQuery) : HttpRequest :=
  let uriPnq := compose_path_and_query config.origin path
  let hs0 := sanitizeHeaders reqHeaders
  let hs1 := hs0.insert "te" "trailers"
  let hs2 := hs1.insert "content-type" "application/grpc"
  let hs3 := match config.send_compression_encodings with
    | some encoding => hs2.insert "grpc-encoding" encoding.into_header_value
    | none => hs2
  let hs4 := match into_accept_encoding_header_value config.accept_compression_encodings with
    | some v => hs3.insert "grpc-accept-encoding" v
    | none => hs3
  { uriPathAndQuery := uriPnq, method := "POST", version := "HTTP/2", headers := hs4 }

/-! ## Copy-on-write configuration (grpc.rs, Grpc setters and Clone)

The Arc holding a GrpcConfig is modelled by an address into a heap of
allocated configurations; Arc::clone copies the address, Arc::new appends a
fresh cell. -/

/-- The allocated GrpcConfig cells. -/
structure ConfigHeap where
  cells : List GrpcConfig
deriving Repr

/-- A Grpc client handle: the address of its shared config (the inner
service is irrelevant to the configuration claims). -/
structure GrpcClient where
  configPtr : Nat
deriving DecidableEq, Repr

/-- Arc::new. -/
def ConfigHeap.alloc (h : ConfigHeap) (c : GrpcConfig) : ConfigHeap × Nat :=
  ({ cells := h.cells ++ [c] }, h.cells.length)

/-- Dereference a client's config pointer. -/
def ConfigHeap.read (h : ConfigHeap) (g : GrpcClient) : Option GrpcConfig :=
  h.cells[g.configPtr]?

/-- impl Clone for Grpc (grpc.rs lines 467-475): the config Arc is cloned by
pointer, not by value. -/
def Grpc.clone (g : GrpcClient) : GrpcClient := { configPtr := g.configPtr }

/-- Grpc::send_compressed (grpc.rs lines 168-179): clone the shared config,
update the copy, and point the client at a freshly allocated Arc.  A dangling
pointer (impossible for a live Arc) is a no-op. -/
def Grpc.send_compressed (h : ConfigHeap) (g : GrpcClient)
    (encoding : CompressionEncoding) : ConfigHeap × GrpcClient :=
  match h.read g with
  | some config =>
    let config1 := { config with send_compression_encodings := some encoding }
    let (h1, p) := h.alloc config1
    (h1, { configPtr := p })
  | none => (h, g)

/-- Grpc::accept_compressed (grpc.rs lines 192-200). -/
def Grpc.accept_compressed (h : ConfigHeap) (g : GrpcClient)
    (encoding : CompressionEncoding) : ConfigHeap × GrpcClient :=
  match h.read g with
  | some config =>
    let config1 := { config with
      accept_compression_encodings :=
        config.accept_compression_encodings.enable encoding }
    let (h1, p) := h.alloc config1
    (h1, { configPtr := p })
  | none => (h, g)

/-- Grpc::max_decoding_message_size (grpc.rs lines 208-216). -/
def Grpc.max_decoding_message_size (h : ConfigHeap) (g : GrpcClient)
    (limit : Nat) : ConfigHeap × GrpcClient :=
  match h.read g with
  | some config =>
    let config1 := { config with max_decoding_message_size := some limit }
    let (h1, p) := h.alloc config1
    (h1, { configPtr := p })
  | none => (h, g)

/-- Grpc::max_encoding_message_size (grpc.rs lines 224-232). -/
def Grpc.max_encoding_message_size (h : ConfigHeap) (g : GrpcClient)
    (limit : Nat) : ConfigHeap × GrpcClient :=
  match h.read g with
  | some config =>
    let config1 := { config with max_encoding_message_size := some limit }
    let (h1, p) := h.alloc config1
    (h1, { configPtr := p })
  | none => (h, g)

/-! ## One-shot layers (channel/service/mod.rs, LayerFnOnce) -/

/-- struct LayerFnOnce: a RefCell holding the not-yet-consumed constructor. -/
structure LayerFnOnce (F : Type _) where
  f : Option F
deriving DecidableEq, Repr

/-- LayerFnOnce::new. -/
def LayerFnOnce.new {F : Type _} (f : F) : LayerFnOnce F := ⟨some f⟩

/-- The observable outcome of Layer::layer for LayerFnOnce: the transformed
service together with the spent cell, or the diagnostic of the expect that
aborts a second use. -/
inductive LayerResult (O F : Type _) where
  | ok : O → LayerFnOnce F → LayerResult O F
  | usageError : String → LayerResult O F
deriving DecidableEq, Repr

/-- LayerFnOnce::layer (mod.rs lines 105-119): take the stored constructor
out of the RefCell (leaving None) and apply it; when it was already taken,
the expect panics with its diagnostic.  The opaque closure value F is
applied through the explicit `apply`. -/
def LayerFnOnce.layer {F S O : Type _} (self : LayerFnOnce F) (apply : F → S → O)
    (inner : S) : LayerResult O F :=
  match self.f with
  | some f => .ok (apply f inner) ⟨none⟩
  | none => .usageError "LayerFnOnce used more than once"

/-! ## Status, response creation and the dispatcher (grpc.rs) -/

/-- Metadata headers attached to a Status or a Response. -/
abbrev Metadata := List (String × String)

/-- gRPC Status: integer code, message, metadata. -/
structure Status where
  code : Nat
  message : String
  metadata : Metadata
deriving DecidableEq, Repr

/-- Code::Ok. -/
def Code.Ok : Nat := 0

/-- Code::Unimplemented. -/
def Code.Unimplemented : Nat := 12

/-- Code::Internal. -/
def Code.Internal : Nat := 13

/-- Status::internal. -/
def Status.internal (msg : String) : Status :=
  { code := Code.Internal, message := msg, metadata := [] }

/-- Status::unimplemented. -/
def Status.unimplemented (msg : String) : Status :=
  { code := Code.Unimplemented, message := msg, metadata := [] }

/-- The registered name of each compression encoding, for parsing response
headers. -/
def parse_encoding (v : String) : Option CompressionEncoding :=
  if v = "gzip" then some .gzip
  else if v = "deflate" then some .deflate
  else if v = "zstd" then some .zstd
  else none

/-- Modelled from the spec: codec/compression.rs is not under src/.  §4.1
step 4: "compute encoding from grpc-encoding response header intersected
against the client's accept set; reject unknown encodings with
Unimplemented".  An absent header or the identity encoding means no
compression. -/
def CompressionEncoding.from_encoding_header (headers : Headers)
    (accept : EnabledCompressionEncodings) : Except Status (Option CompressionEncoding) :=
  match List.lookup "grpc-encoding" headers with
  | none => .ok none
  | some v =>
    if v = "identity" then .ok none
    else
      match parse_encoding v with
      | some e =>
        if accept.contains e then .ok (some e)
        else .error (Status.unimplemented ("Content is compressed with " ++ v
          ++ " which is not supported"))
      | none => .error (Status.unimplemented ("Content is compressed with " ++ v
          ++ " which is not supported"))

/-- Decimal value of a run of ASCII digit characters. -/
def decimalValue (l : List Char) : Nat :=
  l.foldl (fun acc c => acc * 10 + (c.toNat - 48)) 0

/-- Parse a non-empty all-digit string as a natural number. -/
def parseDecimal (s : String) : Option Nat :=
  if s.data = [] then none
  else if s.data.all (fun c => 48 ≤ c.toNat && c.toNat ≤ 57) then some (decimalValue s.data)
  else none

/-- Modelled from the spec: status.rs is not under src/.  §6: "grpc-status in
headers ⇒ trailer-only"; the code is the integer value of the grpc-status
header and the message comes from grpc-message.  An absent or unparseable
grpc-status yields none. -/
def Status.from_header_map (headers : Headers) : Option Status :=
  match List.lookup "grpc-status" headers with
  | none => none
  | some v =>
    match parseDecimal v with
    | some code =>
      some { code := code,
             message := (List.lookup "grpc-message" headers).getD "",
             metadata := [] }
    | none => none

/-- Streaming mode: expecting trailers from the body, or short-circuited
empty. -/
inductive StreamMode where
  | response : StreamMode
  | empty : StreamMode
deriving DecidableEq, Repr

/-- The raw response body bytes. -/
abbrev BodyBytes := List Nat

/-- codec::Streaming, reduced to its mode and the untouched body. -/
structure Streaming where
  mode : StreamMode
  body : BodyBytes
deriving DecidableEq, Repr

/-- Streaming::new_response. -/
def Streaming.new_response (body : BodyBytes) : Streaming := ⟨.response, body⟩

/-- Streaming::new_empty. -/
def Streaming.new_empty (body : BodyBytes) : Streaming := ⟨.empty, body⟩

/-- Modelled from the spec: codec/decode.rs is not under src/.  §4.9: the
Empty mode "returns an immediately-empty stream" without touching the body,
while the expect-trailers mode consumes frames from the body; decoding one
frame is abstracted by the `decodeStep` parameter. -/
def Streaming.next {M : Type _} (decodeStep : BodyBytes → Option M × BodyBytes) :
    Streaming → Option M × Streaming
  | ⟨.empty, body⟩ => (none, ⟨.empty, body⟩)
  | ⟨.response, body⟩ =>
    let (m, rest) := decodeStep body
    (m, ⟨.response, rest⟩)

/-- Grpc::create_response (grpc.rs lines 363-408): compute the response
encoding, then short-circuit on a trailer-only status — a non-Ok status
fails the call, an Ok status yields an empty-mode stream, and otherwise the
body is wrapped expecting trailers. -/
def Grpc.create_response (config : GrpcConfig) (respHeaders : Headers)
    (body : BodyBytes) : Except Status (Headers × Streaming) :=
  match CompressionEncoding.from_encoding_header respHeaders
      config.accept_compression_encodings with
  | .error e => .error e
  | .ok _encoding =>
    match Status.from_header_map respHeaders with
    | some status =>
      if status.code ≠ Code.Ok then .error status
      else .ok (respHeaders, Streaming.new_empty body)
    | none => .ok (respHeaders, Streaming.new_response body)

/-! ## client_streaming and unary (grpc.rs lines 247-300) -/

/-- Modelled from the spec: the decoded message stream of §4.9 as the
dispatcher consumes it — a finite list of decoded messages followed by a
terminal outcome, either a Status error or a graceful end carrying optional
trailer metadata. -/
structure DecodedStream (M : Type _) where
  msgs : List M
  outcome : Except Status (Option Metadata)

/-- Modelled from the spec: StreamExt::try_next on the decoded stream yields
the next message, none at a graceful end of stream, or the terminal status
error. -/
def DecodedStream.try_next {M : Type _} :
    DecodedStream M → Except Status (Option (M × DecodedStream M))
  | ⟨[], .ok _⟩ => .ok none
  | ⟨[], .error s⟩ => .error s
  | ⟨m :: rest, outcome⟩ => .ok (some (m, ⟨rest, outcome⟩))

/-- Modelled from the spec: Streaming::trailers drains any remaining
messages ("ignore any later frames") and returns the trailer metadata, or
the terminal status error. -/
def DecodedStream.trailers {M : Type _} (s : DecodedStream M) :
    Except Status (Option Metadata) :=
  s.outcome

/-- Grpc::client_streaming, response half (grpc.rs lines 281-299): read one
message from the decoded stream; a stream error gets the response header
metadata merged into its status; a graceful end without a message is
Internal "Missing response message."; otherwise any trailers are merged into
the response metadata and the first message is returned. -/
def Grpc.client_streaming_response {M : Type _} (parts : Metadata)
    (body : DecodedStream M) : Except Status (Metadata × M) :=
  match body.try_next with
  | .error status => .error { status with metadata := status.metadata ++ parts }
  | .ok none => .error (Status.internal "Missing response message.")
  | .ok (some (message, rest)) =>
    match rest.trailers with
    | .error s => .error s
    | .ok (some trailers) => .ok (parts ++ trailers, message)
    | .ok none => .ok (parts, message)

/-- tokio_stream::once. -/
def tokio_stream_once {M : Type _} (m : M) : List M := [m]

/-- Grpc::client_streaming (grpc.rs lines 266-300): the request stream is
encoded and sent; the server's decoded reply stream is the `body` oracle,
consumed by client_streaming_response. -/
def Grpc.client_streaming_call {M1 M2 : Type _} (_reqStream : List M1)
    (parts : Metadata) (body : DecodedStream M2) : Except Status (Metadata × M2) :=
  Grpc.client_streaming_response parts body

/-- Grpc::unary (grpc.rs lines 247-263): lift the request to a one-element
stream and delegate to client_streaming. -/
def Grpc.unary_call {M1 M2 : Type _} (request : M1) (parts : Metadata)
    (body : DecodedStream M2) : Except Status (Metadata × M2) :=
  Grpc.client_streaming_call (tokio_stream_once request) parts body

/-! ## Concrete sample values used by counterexamples and witnesses -/

/-- A URI with no parts set. -/
def emptyUri : Uri := { scheme := none, authority := none, path_and_query := none }

/-- GrpcConfig::default(): no compression enabled, no size limits. -/
def defaultConfig : GrpcConfig :=
  { origin := emptyUri
    accept_compression_encodings := []
    send_compression_encodings := none
    max_decoding_message_size := none
    max_encoding_message_size := none }

/-- An origin URI whose path is a lone "/" but which carries a query
("http://example.com/?q=1"). -/
def originWithQuery : Uri :=
  { scheme := some "http"
    authority := some "example.com"
    path_and_query := some { pathData := "/", query := some "q=1" } }

/-- A typical gRPC method path. -/
def sampleMethodPath : PathAndQuery := { pathData := "/svc.Svc/Method", query := none }

/-- Response headers of a trailer-only error response that is also declared
compressed with an encoding the client does not accept. -/
def gzipTrailerOnlyHeaders : Headers := [("grpc-status", "5"), ("grpc-encoding", "gzip")]

/-! # Theorems

General-purpose lemmas first, then one theorem per claim (with its
counterexample and witness where required). -/

theorem string_append_ne_empty_left (s t : String) (h : s ≠ "") : s ++ t ≠ "" := by
  cases s with
  | mk l1 =>
    cases t with
    | mk l2 =>
      intro he
      apply h
      have hdata : l1 ++ l2 = [] := congrArg String.data he
      have h1 : l1 = [] := (List.append_eq_nil.mp hdata).1
      rw [h1]

theorem lookup_insert_self (l : Headers) (k v : String) :
    List.lookup k (Headers.insert l k v) = some v := by
  simp [Headers.insert, List.lookup]

theorem lookup_filter_other (l : Headers) (k k' : String) (h : k ≠ k') :
    List.lookup k (l.filter (fun p => p.1 != k')) = List.lookup k l := by
  induction l with
  | nil => rfl
  | cons a t ih =>
    obtain ⟨ak, av⟩ := a
    rw [List.filter_cons]
    by_cases hak : ak = k'
    · subst hak
      have hkk : (k == ak) = false := by simp [h]
      simp only [bne_self_eq_false, Bool.false_eq_true, if_false, ih, List.lookup, hkk]
    · have hbne : ((ak, av).1 != k') = true := by simp [hak]
      rw [if_pos hbne]
      by_cases hk : k = ak
      · subst hk
        simp [List.lookup]
      · have hkak : (k == ak) = false := by simp [hk]
        simp only [List.lookup, hkak, ih]

theorem lookup_insert_other (l : Headers) (k k' v : String) (h : k ≠ k') :
    List.lookup k (Headers.insert l k' v) = List.lookup k l := by
  have hk : (k == k') = false := by simp [h]
  simp only [Headers.insert, List.lookup, hk, lookup_filter_other l k k' h]

theorem lookup_sanitize_reserved (l : Headers) (k : String)
    (hm : k ∈ RESERVED_HEADERS) :
    List.lookup k (sanitizeHeaders l) = none := by
  induction l with
  | nil => rfl
  | cons a t ih =>
    obtain ⟨ak, av⟩ := a
    unfold sanitizeHeaders at ih ⊢
    rw [List.filter_cons]
    by_cases hma : ak ∈ RESERVED_HEADERS
    · have hcond : (!RESERVED_HEADERS.contains ((ak, av) : String × String).1) = false := by
        simp [hma]
      rw [hcond]
      simpa using ih
    · have hcond : (!RESERVED_HEADERS.contains ((ak, av) : String × String).1) = true := by
        simp [hma]
      rw [hcond, if_pos rfl]
      have hne : (k == ak) = false := by
        simp only [beq_eq_false_iff_ne, ne_eq]
        intro he
        exact hma (he ▸ hm)
      simp only [List.lookup, hne]
      exact ih

theorem asStr_ne_empty (p : PathAndQuery) : p.asStr ≠ "" := by
  unfold PathAndQuery.asStr
  split
  · decide
  · next h => exact h

theorem path_ne_empty (p : PathAndQuery) : p.path ≠ "" := by
  unfold PathAndQuery.path
  split
  · decide
  · next h => exact h

/-- C5: every outgoing request produced by prepare_request carries
te: trailers, content-type: application/grpc, HTTP method POST and HTTP
version 2; grpc-encoding is present exactly when send-compression is
configured, and grpc-accept-encoding exactly when at least one
accept-compression encoding is enabled. -/
theorem c5_mandatory_request_headers (config : GrpcConfig) (reqHeaders : Headers)
    (path : PathAndQuery) :
    (Grpc.prepare_request config reqHeaders path).method = "POST" ∧
    (Grpc.prepare_request config reqHeaders path).version = "HTTP/2" ∧
    List.lookup "te" (Grpc.prepare_request config reqHeaders path).headers =
      some "trailers" ∧
    List.lookup "content-type" (Grpc.prepare_request config reqHeaders path).headers =
      some "application/grpc" ∧
    (List.lookup "grpc-encoding"
        (Grpc.prepare_request config reqHeaders path).headers).isSome =
      config.send_compression_encodings.isSome ∧
    (List.lookup "grpc-accept-encoding"
        (Grpc.prepare_request config reqHeaders path).headers).isSome =
      !config.accept_compression_encodings.isEmpty := by
  cases hsend : config.send_compression_encodings with
  | none =>
    cases hacc : config.accept_compression_encodings with
    | nil =>
      refine ⟨rfl, rfl, ?_, ?_, ?_, ?_⟩ <;>
        simp [Grpc.prepare_request, hsend, hacc, into_accept_encoding_header_value,
          lookup_insert_self, lookup_insert_other, lookup_sanitize_reserved,
          RESERVED_HEADERS]
    | cons e es =>
      refine ⟨rfl, rfl, ?_, ?_, ?_, ?_⟩ <;>
        simp [Grpc.prepare_request, hsend, hacc, into_accept_encoding_header_value,
          lookup_insert_self, lookup_insert_other, lookup_sanitize_reserved,
          RESERVED_HEADERS]
  | some enc =>
    cases hacc : config.accept_compression_encodings with
    | nil =>
      refine ⟨rfl, rfl, ?_, ?_, ?_, ?_⟩ <;>
        simp [Grpc.prepare_request, hsend, hacc, into_accept_encoding_header_value,
          lookup_insert_self, lookup_insert_other, lookup_sanitize_reserved,
          RESERVED_HEADERS]
    | cons e es =>
      refine ⟨rfl, rfl, ?_, ?_, ?_, ?_⟩ <;>
        simp [Grpc.prepare_request, hsend, hacc, into_accept_encoding_header_value,
          lookup_insert_self, lookup_insert_other, lookup_sanitize_reserved,
          RESERVED_HEADERS]

/-- C6 counterexample: for an origin whose path component is a lone "/" but
which carries a query, the code does not strip the "/" (it compares the
whole path-and-query against "/"), so the composed path is not the claim's
origin-path-with-lone-slash-stripped concatenation. -/
theorem c6_uri_composition_counterexample :
    compose_path_and_query originWithQuery sampleMethodPath ≠
      claim_composed_path originWithQuery sampleMethodPath ∧
    compose_path_and_query originWithQuery sampleMethodPath = "//svc.Svc/Method" ∧
    claim_composed_path originWithQuery sampleMethodPath = "/svc.Svc/Method" := by
  refine ⟨?_, ?_, ?_⟩ <;> decide

/-- C6 amended: the outgoing URI's path-and-query is the method's
PathAndQuery alone when the origin's entire path-and-query is exactly "/"
(or absent), and otherwise the origin's path component (its query dropped)
concatenated with the method's PathAndQuery; the composed string is always
non-empty. -/
theorem c6_uri_composition_amended (origin : Uri) (path : PathAndQuery) :
    compose_path_and_query origin path = amended_composed_path origin path ∧
    compose_path_and_query origin path ≠ "" := by
  obtain ⟨s, a, pq⟩ := origin
  constructor
  · cases pq with
    | none => rfl
    | some pnq =>
      by_cases hp : pnq.asStr = "/"
      · simp [compose_path_and_query, amended_composed_path, hp]
      · simp [compose_path_and_query, amended_composed_path, hp]
  · cases pq with
    | none => exact asStr_ne_empty path
    | some pnq =>
      by_cases hp : pnq.asStr = "/"
      · simpa [compose_path_and_query, hp] using asStr_ne_empty path
      · simpa [compose_path_and_query, hp] using
          string_append_ne_empty_left pnq.path path.displayStr (path_ne_empty pnq)

/-- C2: client_streaming (and unary, which lifts its request to a
one-element stream and delegates to it) fails with
Internal "Missing response message." when the decoded response stream ends
without yielding a message, and otherwise returns the first message with any
trailers merged into the response metadata. -/
theorem c2_missing_response_message {M1 M2 : Type} (parts : Metadata)
    (tr : Option Metadata) (m : M2) (rest : List M2) (req : M1)
    (body : DecodedStream M2) :
    Grpc.client_streaming_response parts (DecodedStream.mk ([] : List M2) (.ok tr)) =
      .error (Status.internal "Missing response message.") ∧
    Grpc.client_streaming_response parts (DecodedStream.mk (m :: rest) (.ok tr)) =
      .ok ((match tr with | some t => parts ++ t | none => parts), m) ∧
    Grpc.unary_call req parts body = Grpc.client_streaming_call [req] parts body := by
  refine ⟨rfl, ?_, rfl⟩
  cases tr <;> rfl

/-- C1 amended: for a response whose headers carry a parseable grpc-status
and whose grpc-encoding (if any) is acceptable to the client, a non-Ok
status fails the call with exactly that status, and an Ok status yields a
short-circuited empty-mode stream whose polling never consumes the body. -/
theorem c1_trailer_only_short_circuit (config : GrpcConfig) (respHeaders : Headers)
    (body : BodyBytes) (st : Status) (enc : Option CompressionEncoding)
    (M : Type) (decodeStep : BodyBytes → Option M × BodyBytes)
    (henc : CompressionEncoding.from_encoding_header respHeaders
        config.accept_compression_encodings = .ok enc)
    (hst : Status.from_header_map respHeaders = some st) :
    (st.code ≠ Code.Ok → Grpc.create_response config respHeaders body = .error st) ∧
    (st.code = Code.Ok →
      Grpc.create_response config respHeaders body =
        .ok (respHeaders, Streaming.new_empty body)) ∧
    Streaming.next decodeStep (Streaming.new_empty body) =
      (none, Streaming.new_empty body) := by
  refine ⟨?_, ?_, rfl⟩
  · intro hne
    simp only [Grpc.create_response, henc, hst]
    rw [if_pos hne]
  · intro heq
    simp only [Grpc.create_response, henc, hst]
    rw [if_neg (fun hcon => hcon heq)]

/-- Witness for c1_trailer_only_short_circuit: an Ok trailer-only response
with no compression produces the empty-mode stream and its poll leaves the
body untouched. -/
theorem c1_trailer_only_witness :
    (CompressionEncoding.from_encoding_header [("grpc-status", "0")]
        defaultConfig.accept_compression_encodings = .ok none) ∧
    (Status.from_header_map [("grpc-status", "0")] =
      some { code := 0, message := "", metadata := [] }) ∧
    (Grpc.create_response defaultConfig [("grpc-status", "0")] [0, 1] =
      .ok ([("grpc-status", "0")], Streaming.new_empty [0, 1])) ∧
    Streaming.next (fun b => ((none : Option Nat), b)) (Streaming.new_empty [0, 1]) =
      (none, Streaming.new_empty [0, 1]) :=
  ⟨rfl, rfl,
   (c1_trailer_only_short_circuit defaultConfig [("grpc-status", "0")] [0, 1]
       { code := 0, message := "", metadata := [] } none Nat (fun b => (none, b))
       rfl rfl).2.1 rfl,
   (c1_trailer_only_short_circuit defaultConfig [("grpc-status", "0")] [0, 1]
       { code := 0, message := "", metadata := [] } none Nat (fun b => (none, b))
       rfl rfl).2.2⟩

/-- C1 counterexample: a response carrying both grpc-status 5 and an
unacceptable grpc-encoding fails with Unimplemented from the encoding check,
not with the trailer-only status, refuting the claim as stated. -/
theorem c1_trailer_only_counterexample :
    Status.from_header_map gzipTrailerOnlyHeaders =
      some { code := 5, message := "", metadata := [] } ∧
    Grpc.create_response defaultConfig gzipTrailerOnlyHeaders [] =
      .error (Status.unimplemented "Content is compressed with gzip which is not supported") ∧
    Grpc.create_response defaultConfig gzipTrailerOnlyHeaders [] ≠
      .error { code := 5, message := "", metadata := [] } := by
  refine ⟨rfl, rfl, ?_⟩
  intro hcon
  have hcode : Status.code (Status.unimplemented
      "Content is compressed with gzip which is not supported") = 5 := by
    have h2 : Except.error (ε := Status) (α := Headers × Streaming)
        (Status.unimplemented "Content is compressed with gzip which is not supported") =
        .error { code := 5, message := "", metadata := [] } := by
      rw [← hcon]
      rfl
    injection h2 with h3
    exact congrArg Status.code h3
  exact absurd hcode (by decide)

/-- C7: mutating a Grpc client's configuration through any of the four
setters allocates a fresh config cell and repoints only the mutated handle;
every cell a previously taken clone can observe is left unchanged
(copy-on-write, never an in-place update of the shared config). -/
theorem c7_config_copy_on_write (h : ConfigHeap) (g : GrpcClient)
    (e : CompressionEncoding) (n m : Nat)
    (hv : g.configPtr < h.cells.length) :
    ConfigHeap.read (Grpc.send_compressed h g e).1 (Grpc.clone g) =
      ConfigHeap.read h (Grpc.clone g) ∧
    ConfigHeap.read (Grpc.accept_compressed h g e).1 (Grpc.clone g) =
      ConfigHeap.read h (Grpc.clone g) ∧
    ConfigHeap.read (Grpc.max_decoding_message_size h g n).1 (Grpc.clone g) =
      ConfigHeap.read h (Grpc.clone g) ∧
    ConfigHeap.read (Grpc.max_encoding_message_size h g m).1 (Grpc.clone g) =
      ConfigHeap.read h (Grpc.clone g) := by
  have hfresh : ∀ c : GrpcConfig,
      ConfigHeap.read (h.alloc c).1 (Grpc.clone g) = ConfigHeap.read h (Grpc.clone g) := by
    intro c
    simp only [ConfigHeap.read, ConfigHeap.alloc, Grpc.clone]
    exact List.getElem?_append_left hv
  refine ⟨?_, ?_, ?_, ?_⟩ <;>
    · first
      | (unfold Grpc.send_compressed; cases hr : h.read g <;> simp [hr, hfresh])
      | (unfold Grpc.accept_compressed; cases hr : h.read g <;> simp [hr, hfresh])
      | (unfold Grpc.max_decoding_message_size; cases hr : h.read g <;> simp [hr, hfresh])
      | (unfold Grpc.max_encoding_message_size; cases hr : h.read g <;> simp [hr, hfresh])

/-- Witness for c7_config_copy_on_write at a one-cell heap. -/
theorem c7_config_copy_on_write_witness :
    (GrpcClient.mk 0).configPtr < (ConfigHeap.mk [defaultConfig]).cells.length ∧
    (ConfigHeap.read
        (Grpc.send_compressed (ConfigHeap.mk [defaultConfig]) (GrpcClient.mk 0) .gzip).1
        (Grpc.clone (GrpcClient.mk 0)) =
      ConfigHeap.read (ConfigHeap.mk [defaultConfig]) (Grpc.clone (GrpcClient.mk 0)) ∧
     ConfigHeap.read
        (Grpc.accept_compressed (ConfigHeap.mk [defaultConfig]) (GrpcClient.mk 0) .gzip).1
        (Grpc.clone (GrpcClient.mk 0)) =
      ConfigHeap.read (ConfigHeap.mk [defaultConfig]) (Grpc.clone (GrpcClient.mk 0)) ∧
     ConfigHeap.read
        (Grpc.max_decoding_message_size (ConfigHeap.mk [defaultConfig]) (GrpcClient.mk 0) 4).1
        (Grpc.clone (GrpcClient.mk 0)) =
      ConfigHeap.read (ConfigHeap.mk [defaultConfig]) (Grpc.clone (GrpcClient.mk 0)) ∧
     ConfigHeap.read
        (Grpc.max_encoding_message_size (ConfigHeap.mk [defaultConfig]) (GrpcClient.mk 0) 4).1
        (Grpc.clone (GrpcClient.mk 0)) =
      ConfigHeap.read (ConfigHeap.mk [defaultConfig]) (Grpc.clone (GrpcClient.mk 0))) :=
  ⟨by decide,
   c7_config_copy_on_write (ConfigHeap.mk [defaultConfig]) (GrpcClient.mk 0) .gzip 4 4
     (by decide)⟩

/-- C8: the first invocation of LayerFnOnce::layer applies the stored
constructor to the inner service and leaves the cell spent; a second
invocation on the spent cell is a detected usage error with the expect's
diagnostic rather than a silent reuse. -/
theorem c8_layer_fn_once {F S O : Type} (f : F) (apply : F → S → O) (inner inner2 : S) :
    (LayerFnOnce.new f).layer apply inner =
      .ok (apply f inner) (LayerFnOnce.mk none) ∧
    (LayerFnOnce.mk (F := F) none).layer apply inner2 =
      .usageError "LayerFnOnce used more than once" :=
  ⟨rfl, rfl⟩

/-- C9: the sleep future of the asynchronous deadline variant pends while
the oneshot channel is empty, transitions to the timer state when the
channel delivers a value, and when the delivered value is None it pends on
every subsequent poll and never completes, so ResponseFuture never produces
TimeoutExpired from it. -/
theorem c9_sleep_channel_then_timer {E R : Type} (now : Nat) (d : Duration)
    (times : List Nat) (innerPoll : FuturePoll (Except E R)) :
    SleepKnown.poll now (.no .pending) = some (false, .no .pending) ∧
    SleepKnown.poll now (.no (.value (some d))) =
      some (decide (now + d ≤ now), .yes (some (now + d))) ∧
    SleepKnown.poll now (.no (.value none)) = some (false, .yes none) ∧
    pollSleepMany times (.yes none) = some (false, .yes none) ∧
    isTimeoutOutcome (ResponseFuture.poll innerPoll now (.yes none)) = false := by
  refine ⟨rfl, rfl, rfl, ?_, ?_⟩
  · induction times with
    | nil => rfl
    | cons t rest ih => simpa [pollSleepMany, SleepKnown.poll, pollYes] using ih
  · cases innerPoll with
    | ready r => cases r <;> rfl
    | pending => rfl

/-- C10: ResponseFuture::poll polls the inner future first — a ready inner
result is returned unchanged (its error boxed) without consulting the sleep
future, even if the deadline has already expired; TimeoutExpired is produced
only when the inner future is still pending. -/
theorem c10_inner_future_first {E R : Type} (r : Except E R) (now : Nat)
    (sleep s1 : SleepKnown) (innerPoll : FuturePoll (Except E R)) :
    (ResponseFuture.poll (.ready r) now sleep =
      some (.ready (match r with
                    | .ok v => .ok v
                    | .error e => .error (.inner e)), sleep)) ∧
    (ResponseFuture.poll innerPoll now sleep =
        some (.ready (.error .timeoutExpired), s1) →
      innerPoll = .pending) := by
  constructor
  · cases r <;> rfl
  · intro hp
    cases innerPoll with
    | pending => rfl
    | ready r2 =>
      cases r2 <;> simp [ResponseFuture.poll] at hp

theorem unit_visible {u : Nat} (h : isUnitByte u = true) : visibleAscii u = true := by
  simp only [isUnitByte, Bool.or_eq_true, decide_eq_true_eq] at h
  rcases h with ((((h | h) | h) | h) | h) | h <;> subst h <;> decide

theorem digit_visible {b : Nat} (h : isDigitByte b = true) : visibleAscii b = true := by
  simp only [isDigitByte, Bool.and_eq_true, decide_eq_true_eq] at h
  simp only [visibleAscii, Bool.or_eq_true, Bool.and_eq_true, decide_eq_true_eq]
  omega

theorem numericOk_visible {d : List Nat} (h : numericOk d = true) :
    d.all visibleAscii = true := by
  cases d with
  | nil => simp [numericOk, numericDigits] at h
  | cons c rest =>
    by_cases hc : c = 43
    · subst hc
      simp only [numericOk, numericDigits, if_pos rfl, Bool.and_eq_true] at h
      rw [List.all_eq_true]
      intro b hb
      rcases List.mem_cons.mp hb with rfl | hb2
      · decide
      · exact digit_visible (List.all_eq_true.mp h.2 b hb2)
    · simp only [numericOk, numericDigits, if_neg hc, Bool.and_eq_true] at h
      rw [List.all_eq_true]
      intro b hb
      exact digit_visible (List.all_eq_true.mp h.2 b hb)

theorem digitsValAux_lt : ∀ (l : List Nat), l.all isDigitByte = true → ∀ acc : Nat,
    l.foldl (fun a b => a * 10 + (b - 48)) acc < (acc + 1) * 10 ^ l.length
  | [], _, acc => by simp
  | b :: t, h, acc => by
    rw [List.all_cons, Bool.and_eq_true] at h
    have hb9 : b - 48 ≤ 9 := by
      have hb := h.1
      simp only [isDigitByte, Bool.and_eq_true, decide_eq_true_eq] at hb
      omega
    rw [List.foldl_cons, List.length_cons]
    have step := digitsValAux_lt t h.2 (acc * 10 + (b - 48))
    have h2 : (acc * 10 + (b - 48) + 1) * 10 ^ t.length ≤ (acc + 1) * 10 ^ (t.length + 1) := by
      have hle : acc * 10 + (b - 48) + 1 ≤ (acc + 1) * 10 := by omega
      calc (acc * 10 + (b - 48) + 1) * 10 ^ t.length
          ≤ ((acc + 1) * 10) * 10 ^ t.length := Nat.mul_le_mul_right _ hle
        _ = (acc + 1) * 10 ^ (t.length + 1) := by ring
    exact lt_of_lt_of_le step h2

theorem digitsVal_lt (l : List Nat) (h : l.all isDigitByte = true) :
    digitsVal l < 10 ^ l.length := by
  have := digitsValAux_lt l h 0
  simpa [digitsVal] using this

theorem numericDigits_length_le (l : List Nat) : (numericDigits l).length ≤ l.length := by
  unfold numericDigits
  cases l with
  | nil => simp
  | cons c rest => by_cases hc : c = 43 <;> simp [hc]

theorem parseU64_eq (d : List Nat) (hlen : d.length ≤ 8) :
    parseU64 d = if numericOk d then some (digitsVal (numericDigits d)) else none := by
  unfold parseU64 numericOk
  by_cases h1 : (numericDigits d).isEmpty
  · simp [h1]
  · by_cases h2 : (numericDigits d).all isDigitByte
    · have hnum_len : (numericDigits d).length ≤ 8 :=
        le_trans (numericDigits_length_le d) hlen
      have hlt : digitsVal (numericDigits d) < 2 ^ 64 := by
        have hbound := digitsVal_lt (numericDigits d) h2
        have h10 : (10 : Nat) ^ (numericDigits d).length ≤ 10 ^ 8 :=
          Nat.pow_le_pow_right (by omega) hnum_len
        have h28 : (10 : Nat) ^ 8 < 2 ^ 64 := by norm_num
        omega
      have hcond : (!(numericDigits d).isEmpty && (numericDigits d).all isDigitByte) = true := by
        simp [h1, h2]
      rw [if_neg h1, if_pos h2, if_pos hlt, if_pos hcond]
    · have hcond : ¬((!(numericDigits d).isEmpty && (numericDigits d).all isDigitByte) = true) := by
        simp [h2]
      rw [if_neg h1, if_neg h2, if_neg hcond]

theorem try_parse_value_spec (val : HeaderBytes) :
    try_parse_grpc_timeout_value val =
      some (if timeoutWellFormed val then Except.ok (denotedDuration val)
            else Except.error val) := by
  rcases val.eq_nil_or_concat' with rfl | ⟨d, u, rfl⟩
  · rfl
  · have hlen1 : (d ++ [u]).length - 1 = d.length := by simp
    have htake : (d ++ [u]).take ((d ++ [u]).length - 1) = d := by
      rw [hlen1]
      exact List.take_left d [u]
    have hdrop : (d ++ [u]).drop ((d ++ [u]).length - 1) = [u] := by
      rw [hlen1]
      exact List.drop_left d [u]
    have hemp : (d ++ [u]).isEmpty = false := by
      cases d <;> rfl
    have hwf : timeoutWellFormed (d ++ [u]) =
        (isUnitByte u && decide (d.length ≤ 8) && numericOk d) := by
      simp [timeoutWellFormed, List.getLastD_concat, List.dropLast_concat, hemp]
    have hden : denotedDuration (d ++ [u]) =
        digitsVal (numericDigits d) * unitScale u := by
      simp [denotedDuration, List.getLastD_concat, List.dropLast_concat]
    by_cases hvis : (d ++ [u]).all visibleAscii = true
    case neg =>
      have hb : (d ++ [u]).all visibleAscii = false := by
        cases hx : (d ++ [u]).all visibleAscii
        · rfl
        · exact absurd hx hvis
      have hwff : timeoutWellFormed (d ++ [u]) = false := by
        rw [hwf]
        cases h4 : isUnitByte u
        · simp
        · cases h5 : numericOk d
          · simp
          · exfalso
            have hvisd := numericOk_visible h5
            have hvisu := unit_visible h4
            have hall : (d ++ [u]).all visibleAscii = true := by
              rw [List.all_append]
              simp [hvisd, hvisu]
            rw [hall] at hb
            cases hb
      rw [hwff]
      simp [try_parse_grpc_timeout_value, hb]
    case pos =>
      have hparts : d.all visibleAscii = true ∧ visibleAscii u = true := by
        rw [List.all_append] at hvis
        simp only [Bool.and_eq_true] at hvis
        refine ⟨hvis.1, ?_⟩
        have h2 := hvis.2
        simpa using h2
      have hu127 : u < 128 := by
        have hvu := hparts.2
        simp only [visibleAscii, Bool.or_eq_true, Bool.and_eq_true,
          decide_eq_true_eq] at hvu
        omega
      have hbound : isCharBoundary (d ++ [u]) ((d ++ [u]).length - 1) = true := by
        rw [hlen1]
        unfold isCharBoundary
        rcases Nat.eq_zero_or_pos d.length with h0 | h0
        · simp [h0]
        · have hneq : ¬(d.length = (d ++ [u]).length) := by
            simp only [List.length_append, List.length_cons, List.length_nil]
            omega
          rw [List.getElem?_concat_length, if_neg hneq]
          simp only [Bool.or_eq_true, decide_eq_true_eq]
          right
          simp only [Bool.not_eq_true', Bool.and_eq_false_iff, decide_eq_false_iff_not]
          left
          omega
      rw [hwf, hden]
      unfold try_parse_grpc_timeout_value
      rw [hvis, hemp, hbound]
      simp only [Bool.not_true, Bool.false_eq_true, if_false, htake, hdrop]
      by_cases hl8 : d.length ≤ 8
      case neg =>
        have hgt : d.length > 8 := by omega
        rw [if_pos hgt]
        have hdec : decide (d.length ≤ 8) = false := by
          simp [hl8]
        simp [hdec]
      case pos =>
        have hngt : ¬(d.length > 8) := by omega
        rw [if_neg hngt, parseU64_eq d hl8]
        have hdec : decide (d.length ≤ 8) = true := by simp [hl8]
        by_cases hnum : numericOk d
        case neg =>
          have hnf : numericOk d = false := by
            cases hx : numericOk d
            · rfl
            · exact absurd hx hnum
          simp [hnf]
        case pos =>
          rw [if_pos hnum]
          by_cases h72 : u = 72
          · subst h72
            simp [isUnitByte, hdec, hnum, Duration.from_secs, SECONDS_IN_HOUR, unitScale]
            ring
          · by_cases h77 : u = 77
            · subst h77
              simp [isUnitByte, hdec, hnum, Duration.from_secs, SECONDS_IN_MINUTE, unitScale]
              ring
            · by_cases h83 : u = 83
              · subst h83
                simp [isUnitByte, hdec, hnum, Duration.from_secs, unitScale]
              · by_cases h109 : u = 109
                · subst h109
                  simp [isUnitByte, hdec, hnum, Duration.from_millis, unitScale]
                · by_cases h117 : u = 117
                  · subst h117
                    simp [isUnitByte, hdec, hnum, Duration.from_micros, unitScale]
                  · by_cases h110 : u = 110
                    · subst h110
                      simp [isUnitByte, hdec, hnum, Duration.from_nanos, unitScale]
                    · have hunit : isUnitByte u = false := by
                        simp [isUnitByte, h72, h77, h83, h109, h117, h110]
                      have hcons : ∀ c : Nat, ([u] = [c]) = (u = c) := by
                        intro c
                        simp
                      simp [hcons, h72, h77, h83, h109, h117, h110, hunit]

/-- C4 amended: try_parse_grpc_timeout never panics on any header value and
returns Some of the denoted duration exactly for values made of a numeric
part of at most 8 characters (ASCII digits with an optional leading plus
sign accepted by u64 parsing) followed by one unit character in H, M, S, m,
u, n; every other value is returned unchanged as the error. -/
theorem c4_timeout_parse_amended (val : HeaderBytes) :
    try_parse_grpc_timeout_value val =
      some (if timeoutWellFormed val then Except.ok (denotedDuration val)
            else Except.error val) :=
  try_parse_value_spec val

/-- C4 counterexample: the header value "+1H" (bytes 43, 49, 72) is not of
the claim's digits-then-unit form, yet the parser accepts it (u64 parsing
takes the leading plus sign) and returns one hour instead of the original
value as an error. -/
theorem c4_timeout_parse_counterexample :
    timeoutClaimFormat [43, 49, 72] = false ∧
    try_parse_grpc_timeout_value [43, 49, 72] =
      some (.ok (Duration.from_secs (1 * SECONDS_IN_HOUR))) := by
  constructor
  · decide
  · rfl

/-- C3: on every request, both the synchronous and the asynchronous deadline
paths treat an unparseable grpc-timeout as absent and apply exactly the
spec's intersection — min of client and server values when both are present,
the sole present one otherwise, and no deadline when both are absent. -/
theorem c3_deadline_intersection (headers : HeaderMapBytes) (server : Option Duration) :
    GrpcTimeout.call_timeout headers server =
      some (applied_deadline_spec (client_timeout_view headers) server) ∧
    GrpcTimeout.async_call_timeout headers server =
      GrpcTimeout.call_timeout headers server := by
  refine ⟨?_, rfl⟩
  cases hl : headers.lookup GRPC_TIMEOUT_HEADER with
  | none =>
    unfold GrpcTimeout.call_timeout client_timeout_view try_parse_grpc_timeout
    rw [hl]
    cases server <;> simp [combine_timeouts, applied_deadline_spec]
  | some v =>
    unfold GrpcTimeout.call_timeout client_timeout_view try_parse_grpc_timeout
    rw [hl]
    by_cases hw : timeoutWellFormed v <;>
      cases server <;>
        simp [try_parse_value_spec v, hw, combine_timeouts, applied_deadline_spec,
          Except.map]

/-- Witness for c10_inner_future_first: with the inner future pending and an
already-expired sleep, the poll yields TimeoutExpired, and the theorem
concludes the inner future was pending. -/
theorem c10_inner_future_first_witness :
    (ResponseFuture.poll (E := Nat) (R := Nat) .pending 3 (.yes (some 0)) =
      some (.ready (.error .timeoutExpired), .yes (some 0))) ∧
    (FuturePoll.pending : FuturePoll (Except Nat Nat)) = .pending :=
  ⟨rfl,
   (c10_inner_future_first (E := Nat) (R := Nat) (.ok 0) 3 (.yes (some 0))
       (.yes (some 0)) .pending).2 rfl⟩

end Tonic
